import Mathlib

/-!
# Verification of the ferrum-fix tag-value codec utilities

Shallow embedding of `src/fefix/src/tagvalue/utils.rs` (checksum and
body-length validation, raw message encoding) and `src/fefix/src/dt.rs`
(the `DataType` taxonomy), together with proofs of the spec's claims
about them.

Bytes (`u8`) are modelled as `Nat` with explicit `% 256` wherever the
Rust code performs wrapping arithmetic; `usize` subtraction that the
code performs with `wrapping_sub` is modelled with explicit modulus
`2 ^ 64`. Byte buffers and slices are `List Nat`.
-/

namespace Fefix

/-- The `usize` modulus: the Rust code runs on 64-bit targets. -/
def USIZE : Nat := 2 ^ 64

/-- Wrapping subtraction `a.wrapping_sub b` on `usize`, for `a b < USIZE`. -/
def wsub (a b : Nat) : Nat := (a + (USIZE - b % USIZE)) % USIZE

/-- Constant `MIN_FIX_MESSAGE_LEN_IN_BYTES` from `utils.rs`. -/
def MIN_FIX_MESSAGE_LEN_IN_BYTES : Nat := 20

/-- Constant `FIELD_CHECKSUM_LEN_IN_BYTES` from `utils.rs`: `10=` + 3 digits + separator. -/
def FIELD_CHECKSUM_LEN_IN_BYTES : Nat := 7

/-- Function `parse_u8_from_decimal` from `utils.rs`: each digit byte has
the ASCII zero (48) subtracted with `wrapping_sub`, is scaled with `wrapping_mul`, and
the three contributions are combined with `wrapping_add`; every step is
8-bit wrapping arithmetic, so every intermediate is reduced `% 256`. -/
def parse_u8_from_decimal (d0 d1 d2 : Nat) : Nat :=
  ((((d0 % 256 + (256 - 48)) % 256) * 100 % 256
      + ((d1 % 256 + (256 - 48)) % 256) * 10 % 256) % 256
    + (d2 % 256 + (256 - 48)) % 256) % 256

/-- Function `checksum_10` from `utils.rs`: fold `wrapping_add` of all bytes over `0u8`. -/
def checksum_10 (data : List Nat) : Nat :=
  data.foldl (fun value byte => (value + byte) % 256) 0

/-- Function `checksum_digits` from `utils.rs`: the bytes of
`message[message.len() - 4 .. message.len() - 1]`, i.e. the three bytes
at offsets `len-4`, `len-3`, `len-2`. (The Rust slice/`try_into` is
total for messages of at least the asserted minimum length.) -/
def checksum_digits (message : List Nat) : Nat × Nat × Nat :=
  (message.getD (message.length - 4) 0,
   message.getD (message.length - 3) 0,
   message.getD (message.length - 2) 0)

/-- The `DecodeError` variants used by `utils.rs` (`CheckSum`, `Invalid`);
the full enum lives outside `src/`, these two constructors are the ones
the verified code constructs. -/
inductive DecodeError where
  | CheckSum
  | Invalid
deriving DecidableEq, Repr

/-- Function `verify_checksum` from `utils.rs`. -/
def verify_checksum (message : List Nat) : Except DecodeError Unit :=
  let digits := checksum_digits message
  let nominal_checksum := parse_u8_from_decimal digits.1 digits.2.1 digits.2.2
  let actual_checksum :=
    checksum_10 (message.take (message.length - FIELD_CHECKSUM_LEN_IN_BYTES))
  if nominal_checksum ≠ actual_checksum then
    .error .CheckSum
  else
    .ok ()

/-- Function `verify_body_length` from `utils.rs`; `body_length` is computed with
`usize::wrapping_sub`; `end_of_body` uses plain subtraction, which on
`Nat` agrees with the Rust value whenever `data.len() ≥ 7` (the regime
of every caller; shorter input would abort the Rust program). -/
def verify_body_length (data : List Nat) (start_of_body nominal_body_length : Nat) :
    Except DecodeError Unit :=
  let body_length := wsub (wsub data.length FIELD_CHECKSUM_LEN_IN_BYTES) start_of_body
  let end_of_body := data.length - FIELD_CHECKSUM_LEN_IN_BYTES
  if start_of_body > end_of_body ∨ nominal_body_length ≠ body_length then
    .error .Invalid
  else
    .ok ()

end Fefix

/-! ## Claim C2: `checksum_10` is byte-sum modulo 256 -/

namespace Fefix

/-- Folding the wrapping add from any accumulator below 256 yields the
accumulator plus the list sum, modulo 256. -/
theorem checksum_10_foldl (l : List Nat) :
    ∀ v : Nat, v < 256 → l.foldl (fun value byte => (value + byte) % 256) v = (v + l.sum) % 256 := by
  induction l with
  | nil =>
    intro v hv
    simp [Nat.mod_eq_of_lt hv]
  | cons b t ih =>
    intro v hv
    have hlt : (v + b) % 256 < 256 := Nat.mod_lt _ (by omega)
    calc (b :: t).foldl (fun value byte => (value + byte) % 256) v
        = t.foldl (fun value byte => (value + byte) % 256) ((v + b) % 256) := rfl
      _ = ((v + b) % 256 + t.sum) % 256 := ih _ hlt
      _ = (v + b + t.sum) % 256 := Nat.mod_add_mod _ _ _
      _ = (v + (b :: t).sum) % 256 := by simp [List.sum_cons]; ring_nf

/-- The checksum equals the sum of the bytes modulo 256. -/
theorem checksum_10_eq_sum (data : List Nat) : checksum_10 data = data.sum % 256 := by
  simpa using checksum_10_foldl data 0 (by omega)

end Fefix

/-- C2: for every byte sequence `d`, `checksum_10 d` is the sum of the
bytes of `d` modulo 256 (8-bit wraparound); in particular the empty
sequence yields 0, `[0x01]` yields 1, `[0x80, 0x7F]` yields 255, and
`[0x80, 0x80]` yields 0. -/
theorem checksum_10_spec :
    (∀ d : List Nat, Fefix.checksum_10 d = d.sum % 256)
    ∧ Fefix.checksum_10 [] = 0
    ∧ Fefix.checksum_10 [0x01] = 1
    ∧ Fefix.checksum_10 [0x80, 0x7F] = 255
    ∧ Fefix.checksum_10 [0x80, 0x80] = 0 :=
  ⟨Fefix.checksum_10_eq_sum, rfl, rfl, rfl, rfl⟩

/-! ## Claim C6: `parse_u8_from_decimal` inverts 3-digit zero-padded decimal -/

namespace Fefix

set_option maxRecDepth 4096 in
/-- For a byte `n < 256`, its zero-padded ASCII decimal digit bytes are
`48 + n / 100`, `48 + n / 10 % 10`, `48 + n % 10`; parsing them returns `n`. -/
theorem parse_u8_roundtrip :
    ∀ n : Nat, n < 256 →
      parse_u8_from_decimal (48 + n / 100) (48 + n / 10 % 10) (48 + n % 10) = n := by
  decide

/-- Parsing always produces a byte value. -/
theorem parse_u8_lt (d0 d1 d2 : Nat) : parse_u8_from_decimal d0 d1 d2 < 256 :=
  Nat.mod_lt _ (by omega)

end Fefix

/-- C6: `parse_u8_from_decimal` is a total deterministic function into
byte values, and on the three zero-padded ASCII decimal digits of any
`n < 256` it returns exactly `n` (no digit validation: it is defined on
all byte triples). -/
theorem parse_u8_from_decimal_spec :
    (∀ d0 d1 d2 : Nat, Fefix.parse_u8_from_decimal d0 d1 d2 < 256)
    ∧ (∀ n : Nat, n < 256 →
        Fefix.parse_u8_from_decimal (48 + n / 100) (48 + n / 10 % 10) (48 + n % 10) = n) :=
  ⟨Fefix.parse_u8_lt, Fefix.parse_u8_roundtrip⟩

/-- Witness for C6 at `n = 163`: digits `'1' '6' '3'` parse back to 163. -/
theorem parse_u8_from_decimal_spec_witness :
    Fefix.parse_u8_from_decimal (48 + 163 / 100) (48 + 163 / 10 % 10) (48 + 163 % 10) = 163 :=
  parse_u8_from_decimal_spec.2 163 (by decide)

/-! ## The `DataType` taxonomy (`src/fefix/src/dt.rs`) -/

namespace Fefix

/-- The `DataType` enum from `dt.rs`: the closed sum type of all FIX data types. -/
inductive DataType where
  | Char
  | Boolean
  | Float
  | Amt
  | Price
  | PriceOffset
  | Qty
  | Percentage
  | Int
  | DayOfMonth
  | Length
  | NumInGroup
  | SeqNum
  | TagNum
  | String
  | Data
  | MonthYear
  | MultipleCharValue
  | Currency
  | Exchange
  | Language
  | LocalMktDate
  | MultipleStringValue
  | UtcDateOnly
  | UtcTimeOnly
  | UtcTimestamp
  | XmlData
  | Country
deriving DecidableEq, Repr

/-- Alias for `String` usable inside the `DataType` namespace, where the
plain name would resolve to the `DataType.String` constructor. -/
abbrev Str := String

namespace DataType

/-- Method `DataType::is_base_type` from `dt.rs`. -/
def is_base_type : DataType → Bool
  | .Char | .Float | .Int | .String => true
  | _ => false

/-- Method `DataType::base_type` from `dt.rs`. -/
def base_type : DataType → DataType
  | .Char | .Boolean => .Char
  | .Float | .Amt | .Price | .PriceOffset | .Qty | .Percentage => .Float
  | .Int | .DayOfMonth | .Length | .NumInGroup | .SeqNum | .TagNum => .Int
  | _ => .String

/-- Method `DataType::from_quickfix_name` from `dt.rs`: a case-sensitive match
of the query against QuickFIX's spelling table, in source order; the
or-pattern arm `"MULTIPLECHARVALUE" | "MULTIPLEVALUESTRING"` is the
disjunctive test. Unmatched queries fall through to `None`. -/
def from_quickfix_name (name : Fefix.Str) : Option DataType :=
  if name = "AMT" then some .Amt
  else if name = "BOOLEAN" then some .Boolean
  else if name = "CHAR" then some .Char
  else if name = "COUNTRY" then some .Country
  else if name = "CURRENCY" then some .Currency
  else if name = "DATA" then some .Data
  else if name = "DATE" then some .UtcDateOnly
  else if name = "DAYOFMONTH" then some .DayOfMonth
  else if name = "EXCHANGE" then some .Exchange
  else if name = "FLOAT" then some .Float
  else if name = "INT" then some .Int
  else if name = "LANGUAGE" then some .Language
  else if name = "LENGTH" then some .Int
  else if name = "LOCALMKTDATE" then some .LocalMktDate
  else if name = "MONTHYEAR" then some .MonthYear
  else if name = "MULTIPLECHARVALUE" ∨ name = "MULTIPLEVALUESTRING" then some .MultipleCharValue
  else if name = "MULTIPLESTRINGVALUE" then some .MultipleStringValue
  else if name = "NUMINGROUP" then some .NumInGroup
  else if name = "PERCENTAGE" then some .Percentage
  else if name = "PRICE" then some .Price
  else if name = "PRICEOFFSET" then some .PriceOffset
  else if name = "QTY" then some .Qty
  else if name = "STRING" then some .String
  else if name = "TZTIMEONLY" then some .UtcTimeOnly
  else if name = "TZTIMESTAMP" then some .UtcTimestamp
  else if name = "UTCDATE" then some .UtcDateOnly
  else if name = "UTCDATEONLY" then some .UtcDateOnly
  else if name = "UTCTIMEONLY" then some .UtcTimeOnly
  else if name = "UTCTIMESTAMP" then some .UtcTimestamp
  else if name = "SEQNUM" then some .Int
  else if name = "TIME" then some .UtcTimestamp
  else if name = "XMLDATA" then some .XmlData
  else none

end DataType

/-- The fixed external-name table of `from_quickfix_name`, entry per
match arm in source order (the or-pattern contributes two entries). -/
def quickfixTable : List (String × DataType) :=
  [("AMT", .Amt), ("BOOLEAN", .Boolean), ("CHAR", .Char), ("COUNTRY", .Country),
   ("CURRENCY", .Currency), ("DATA", .Data), ("DATE", .UtcDateOnly),
   ("DAYOFMONTH", .DayOfMonth), ("EXCHANGE", .Exchange), ("FLOAT", .Float),
   ("INT", .Int), ("LANGUAGE", .Language), ("LENGTH", .Int),
   ("LOCALMKTDATE", .LocalMktDate), ("MONTHYEAR", .MonthYear),
   ("MULTIPLECHARVALUE", .MultipleCharValue), ("MULTIPLEVALUESTRING", .MultipleCharValue),
   ("MULTIPLESTRINGVALUE", .MultipleStringValue), ("NUMINGROUP", .NumInGroup),
   ("PERCENTAGE", .Percentage), ("PRICE", .Price), ("PRICEOFFSET", .PriceOffset),
   ("QTY", .Qty), ("STRING", .String), ("TZTIMEONLY", .UtcTimeOnly),
   ("TZTIMESTAMP", .UtcTimestamp), ("UTCDATE", .UtcDateOnly),
   ("UTCDATEONLY", .UtcDateOnly), ("UTCTIMEONLY", .UtcTimeOnly),
   ("UTCTIMESTAMP", .UtcTimestamp), ("SEQNUM", .Int), ("TIME", .UtcTimestamp),
   ("XMLDATA", .XmlData)]

/-- First-match lookup of a query in an association table, comparing
keys by exact (case-sensitive) string equality. -/
def lookupName (s : String) : List (String × DataType) → Option DataType
  | [] => none
  | (k, v) :: rest => if s = k then some v else lookupName s rest

/-- The name query coincides with exact-match lookup in the table. -/
theorem from_quickfix_name_eq_lookup (s : String) :
    DataType.from_quickfix_name s = lookupName s quickfixTable := by
  simp only [DataType.from_quickfix_name, quickfixTable, lookupName]
  by_cases h1 : s = "MULTIPLECHARVALUE" <;> by_cases h2 : s = "MULTIPLEVALUESTRING" <;>
    simp [h1, h2]

end Fefix

namespace Fefix

/-- A query matching no key of the table falls through to `none`. -/
theorem lookupName_eq_none (s : String) :
    ∀ t : List (String × DataType), (∀ p ∈ t, p.1 ≠ s) → lookupName s t = none := by
  intro t
  induction t with
  | nil => intro _; rfl
  | cons p rest ih =>
    intro h
    obtain ⟨k, v⟩ := p
    have hk : ¬ (s = k) := fun hs => h (k, v) (List.mem_cons_self _ _) hs.symm
    simp only [lookupName]
    rw [if_neg hk]
    exact ih fun q hq => h q (List.mem_cons_of_mem _ hq)

/-- Every table entry is recovered exactly by `from_quickfix_name`. -/
theorem from_quickfix_name_of_mem (s : String) (v : DataType) :
    (s, v) ∈ quickfixTable → DataType.from_quickfix_name s = some v := by
  intro h
  fin_cases h <;> rfl

end Fefix

/-- C7: `base_type` is total over the closed `DataType` set and
idempotent; every base type maps to itself; every non-base type maps to
a different member that is itself a base type. -/
theorem base_type_spec :
    ∀ x : Fefix.DataType,
      Fefix.DataType.base_type (Fefix.DataType.base_type x) = Fefix.DataType.base_type x
      ∧ (Fefix.DataType.is_base_type x = true → Fefix.DataType.base_type x = x)
      ∧ (Fefix.DataType.is_base_type x = false →
          Fefix.DataType.base_type x ≠ x
          ∧ Fefix.DataType.is_base_type (Fefix.DataType.base_type x) = true) := by
  intro x
  cases x <;> decide

/-- Witness for C7 at `x = Price` (a non-base type). -/
theorem base_type_spec_witness :
    Fefix.DataType.base_type (Fefix.DataType.base_type Fefix.DataType.Price)
        = Fefix.DataType.base_type Fefix.DataType.Price
      ∧ (Fefix.DataType.is_base_type Fefix.DataType.Price = true →
          Fefix.DataType.base_type Fefix.DataType.Price = Fefix.DataType.Price)
      ∧ (Fefix.DataType.is_base_type Fefix.DataType.Price = false →
          Fefix.DataType.base_type Fefix.DataType.Price ≠ Fefix.DataType.Price
          ∧ Fefix.DataType.is_base_type (Fefix.DataType.base_type Fefix.DataType.Price) = true) :=
  base_type_spec Fefix.DataType.Price

/-- C8: `from_quickfix_name` is exact case-sensitive lookup in the fixed
external-name table: it agrees pointwise with first-match lookup, a
query matching no table key returns `none` (no error), every table entry
is returned as `some`, and the differently-cased `"Amt"` is rejected
while `"AMT"` matches. -/
theorem from_quickfix_name_table_spec :
    (∀ s : String, Fefix.DataType.from_quickfix_name s = Fefix.lookupName s Fefix.quickfixTable)
    ∧ (∀ s : String, (∀ p ∈ Fefix.quickfixTable, p.1 ≠ s) →
        Fefix.DataType.from_quickfix_name s = none)
    ∧ (∀ s v, (s, v) ∈ Fefix.quickfixTable → Fefix.DataType.from_quickfix_name s = some v)
    ∧ Fefix.DataType.from_quickfix_name "Amt" = none
    ∧ Fefix.DataType.from_quickfix_name "AMT" = some Fefix.DataType.Amt :=
  ⟨Fefix.from_quickfix_name_eq_lookup,
   fun s h => (Fefix.from_quickfix_name_eq_lookup s).trans (Fefix.lookupName_eq_none s _ h),
   Fefix.from_quickfix_name_of_mem,
   rfl, rfl⟩

/-- Witness for C8: the table entry `("LENGTH", Int)` is matched. -/
theorem from_quickfix_name_table_spec_witness :
    Fefix.DataType.from_quickfix_name "LENGTH" = some Fefix.DataType.Int :=
  from_quickfix_name_table_spec.2.2.1 "LENGTH" Fefix.DataType.Int (by decide)

/-- C9: the external-name table is many-to-one exactly as enumerated:
the two distinct spellings `"MULTIPLECHARVALUE"` and
`"MULTIPLEVALUESTRING"` both map to `MultipleCharValue`, and the
distinct spellings `"INT"`, `"LENGTH"`, `"SEQNUM"` all map to the plain
integer type `Int` — in particular `"LENGTH"` maps to `Int`, not to the
`Length` variant. -/
theorem from_quickfix_name_collapses :
    Fefix.DataType.from_quickfix_name "MULTIPLECHARVALUE"
        = some Fefix.DataType.MultipleCharValue
    ∧ Fefix.DataType.from_quickfix_name "MULTIPLEVALUESTRING"
        = some Fefix.DataType.MultipleCharValue
    ∧ ("MULTIPLECHARVALUE" : String) ≠ "MULTIPLEVALUESTRING"
    ∧ Fefix.DataType.from_quickfix_name "INT" = some Fefix.DataType.Int
    ∧ Fefix.DataType.from_quickfix_name "LENGTH" = some Fefix.DataType.Int
    ∧ Fefix.DataType.from_quickfix_name "SEQNUM" = some Fefix.DataType.Int
    ∧ ("INT" : String) ≠ "LENGTH"
    ∧ ("LENGTH" : String) ≠ "SEQNUM"
    ∧ Fefix.DataType.Int ≠ Fefix.DataType.Length := by
  refine ⟨rfl, rfl, by decide, rfl, rfl, rfl, by decide, by decide, by decide⟩

/-! ## The raw encoder (`encode_raw` in `src/fefix/src/tagvalue/utils.rs`) -/

namespace Fefix

/-- Modelled from the spec: the encode-side error type. `EncodeError` is
declared outside `src/`; its variants are irrelevant here because
`encode_raw` never constructs one, so a single abstract variant stands
for all of them. -/
inductive EncodeError where
  | failure
deriving DecidableEq, Repr

/-- The six digit bytes back-patched over the `BodyLength(9)`
placeholder, one per source assignment `slice[j] = …`: an `as u8`
truncation (`% 256`) where the source has one, then `+ b'0'` as 8-bit
wrapping addition. -/
def bodyLenDigits (body_length : Nat) : List Nat :=
  [(body_length / 100000 % 256 + 48) % 256,
   (body_length / 10000 % 10 + 48) % 256,
   (body_length / 1000 % 10 + 48) % 256,
   (body_length / 100 % 10 + 48) % 256,
   (body_length / 10 % 10 + 48) % 256,
   (body_length % 10 + 48) % 256]

/-- The trailing `CheckSum(10)` field bytes appended by `encode_raw`:
`10=`, three zero-padded checksum digits, separator. (`checksum < 256`,
so the `u8` additions cannot wrap.) -/
def checksumField (checksum separator : Nat) : List Nat :=
  [49, 48, 61,
   checksum / 100 + 48,
   checksum / 10 % 10 + 48,
   checksum % 10 + 48,
   separator]

/-- In-place overwrite of consecutive buffer positions starting at `i`
with the given bytes: the model of the back-patch writes into
`buffer.as_mut_slice()[body_length_writable_range]`. -/
def writeAt (l : List Nat) (i : Nat) : List Nat → List Nat
  | [] => l
  | d :: ds => writeAt (l.set i d) (i + 1) ds

/-- Function `encode_raw` from `utils.rs`. The `Buffer` trait and the
`body_writer` closure live outside `src/`; modelled from the spec,
which requires the body-writing operation to append body fields to the
output buffer and return the number of bytes written: the closure is
represented by the byte list `body_bytes` it appends and the count
`body_ret` it returns (kept separate so that a writer returning a wrong
count is representable). The result pairs the Rust return value
`Ok(buffer.as_slice().len())` with the final buffer contents. -/
def encode_raw (begin_string : List Nat) (body_bytes : List Nat) (body_ret : Nat)
    (buffer : List Nat) (separator : Nat) : Except EncodeError (Nat × List Nat) :=
  let start_i := buffer.length
  let buf1 := buffer ++ [56, 61] ++ begin_string
      ++ [separator, 57, 61, 48, 48, 48, 48, 48, 48, separator]
  let body_length_writable_lo := buf1.length - 7
  let buf2 := buf1 ++ body_bytes
  let body_length := body_ret
  let buf3 := writeAt buf2 body_length_writable_lo (bodyLenDigits body_length)
  let checksum := checksum_10 (buf3.drop start_i)
  let buf4 := buf3 ++ checksumField checksum separator
  .ok (buf4.length, buf4)

/-- The final buffer contents produced by `encode_raw`. -/
def encodedMsg (begin_string body_bytes : List Nat) (body_ret : Nat)
    (buffer : List Nat) (separator : Nat) : List Nat :=
  match encode_raw begin_string body_bytes body_ret buffer separator with
  | .ok (_, m) => m
  | .error _ => []

/-- The value returned by `encode_raw`. -/
def encodedLen (begin_string body_bytes : List Nat) (body_ret : Nat)
    (buffer : List Nat) (separator : Nat) : Nat :=
  match encode_raw begin_string body_bytes body_ret buffer separator with
  | .ok (n, _) => n
  | .error _ => 0

/-- Overwriting positions at or past the length of a prefix leaves the
prefix intact. -/
theorem writeAt_append (ds : List Nat) :
    ∀ (A B : List Nat) (i : Nat), A.length ≤ i →
      writeAt (A ++ B) i ds = A ++ writeAt B (i - A.length) ds := by
  induction ds with
  | nil => intro A B i _; rfl
  | cons d ds ih =>
    intro A B i hi
    show writeAt ((A ++ B).set i d) (i + 1) ds
        = A ++ writeAt (B.set (i - A.length) d) (i - A.length + 1) ds
    rw [List.set_append_right i d hi, ih A _ (i + 1) (Nat.le_succ_of_le hi)]
    congr 2
    omega

/-- Overwriting a prefix of the same length as the written bytes
replaces it. -/
theorem writeAt_replace (ds : List Nat) :
    ∀ (pad B : List Nat), pad.length = ds.length →
      writeAt (pad ++ B) 0 ds = ds ++ B := by
  induction ds with
  | nil =>
    intro pad B h
    have hp : pad = [] := List.length_eq_zero.mp (by simpa using h)
    subst hp
    rfl
  | cons d ds ih =>
    intro pad B h
    match pad with
    | [] => simp at h
    | p :: pt =>
      show writeAt ((p :: pt ++ B).set 0 d) 1 ds = (d :: ds) ++ B
      have h1 : (p :: pt ++ B).set 0 d = [d] ++ (pt ++ B) := rfl
      have h2 : ([d] : List Nat).length ≤ 1 := by simp
      rw [h1, writeAt_append ds [d] (pt ++ B) 1 h2]
      simp only [List.length_cons, List.length_nil, Nat.sub_self]
      rw [ih pt B (by simpa using h)]
      rfl

/-- Overwriting preserves the buffer length. -/
theorem writeAt_length (ds : List Nat) :
    ∀ (l : List Nat) (i : Nat), (writeAt l i ds).length = l.length := by
  induction ds with
  | nil => intro l i; rfl
  | cons d ds ih =>
    intro l i
    show (writeAt (l.set i d) (i + 1) ds).length = l.length
    rw [ih, List.length_set]

end Fefix

/-! ## Claims C4, C5: the validators -/

namespace Fefix

/-- Wrapping subtraction agrees with truncated subtraction when the
mathematical difference is `usize`-representable. -/
theorem wsub_eq_sub (a b : Nat) (hb : b ≤ a) (hbW : b < USIZE) (hW : a - b < USIZE) :
    wsub a b = a - b := by
  unfold wsub
  rw [Nat.mod_eq_of_lt hbW]
  have h1 : a + (USIZE - b) = USIZE + (a - b) := by omega
  rw [h1, Nat.add_mod_left]
  exact Nat.mod_eq_of_lt hW

/-- A checksum is always a byte value. -/
theorem checksum_10_lt (data : List Nat) : checksum_10 data < 256 := by
  rw [checksum_10_eq_sum]
  exact Nat.mod_lt _ (by omega)

/-- The digit bytes appended in the `CheckSum(10)` field parse back to
the checksum. -/
theorem parse_checksum_field_digits (c : Nat) (hc : c < 256) :
    parse_u8_from_decimal (c / 100 + 48) (c / 10 % 10 + 48) (c % 10 + 48) = c := by
  rw [Nat.add_comm (c / 100) 48, Nat.add_comm (c / 10 % 10) 48, Nat.add_comm (c % 10) 48]
  exact parse_u8_roundtrip c hc

end Fefix

/-- C4: for data of length at least 7 (and `usize`-representable),
`verify_body_length` returns the `InvalidBodyLength`-style error
`DecodeError.Invalid` if and only if `start_of_body` exceeds the implied
end-of-body offset `data.length - 7` or the declared length differs from
`data.length - 7 - start_of_body`, and returns `Ok` otherwise. -/
theorem verify_body_length_spec (data : List Nat) (start_of_body nominal_body_length : Nat)
    (h7 : 7 ≤ data.length) (hW : data.length < Fefix.USIZE) :
    (Fefix.verify_body_length data start_of_body nominal_body_length
        = .error .Invalid
      ↔ (start_of_body > data.length - 7
          ∨ nominal_body_length ≠ data.length - 7 - start_of_body))
    ∧ (Fefix.verify_body_length data start_of_body nominal_body_length = .ok ()
      ↔ ¬ (start_of_body > data.length - 7
          ∨ nominal_body_length ≠ data.length - 7 - start_of_body)) := by
  have h7W : (7 : Nat) < Fefix.USIZE := by
    rw [Fefix.USIZE]
    norm_num
  simp only [Fefix.verify_body_length, Fefix.FIELD_CHECKSUM_LEN_IN_BYTES]
  by_cases hs : data.length - 7 < start_of_body
  · rw [if_pos (Or.inl hs)]
    simp [hs]
  · push_neg at hs
    have hsW : start_of_body < Fefix.USIZE := Nat.lt_of_le_of_lt (hs.trans (Nat.sub_le _ _)) hW
    have hb : Fefix.wsub (Fefix.wsub data.length 7) start_of_body
        = data.length - 7 - start_of_body := by
      rw [Fefix.wsub_eq_sub data.length 7 h7 h7W (Nat.lt_of_le_of_lt (Nat.sub_le _ _) hW),
        Fefix.wsub_eq_sub _ _ hs hsW (Nat.lt_of_le_of_lt (Nat.sub_le _ _)
          (Nat.lt_of_le_of_lt (Nat.sub_le _ _) hW))]
    simp only [hb]
    by_cases hn : nominal_body_length = data.length - 7 - start_of_body
    · rw [if_neg (by simp [hn, Nat.not_lt.mpr hs])]
      simp [hn, Nat.not_lt.mpr hs]
    · rw [if_pos (Or.inr hn)]
      simp [hn]

/-- Witness for C4 on the spec's worked example message
`8=FIX.4.4|9=5|35=0|10=163|` (SOH separators): length 26, body starts
at offset 14, declared length 5. -/
theorem verify_body_length_spec_witness :
    (Fefix.verify_body_length
        [56, 61, 70, 73, 88, 46, 52, 46, 52, 1, 57, 61, 53, 1, 51, 53, 61, 48, 1,
         49, 48, 61, 49, 54, 51, 1] 14 5
        = .error .Invalid
      ↔ (14 > ([56, 61, 70, 73, 88, 46, 52, 46, 52, 1, 57, 61, 53, 1, 51, 53, 61, 48, 1,
          49, 48, 61, 49, 54, 51, 1] : List Nat).length - 7
          ∨ 5 ≠ ([56, 61, 70, 73, 88, 46, 52, 46, 52, 1, 57, 61, 53, 1, 51, 53, 61, 48, 1,
          49, 48, 61, 49, 54, 51, 1] : List Nat).length - 7 - 14))
    ∧ (Fefix.verify_body_length
        [56, 61, 70, 73, 88, 46, 52, 46, 52, 1, 57, 61, 53, 1, 51, 53, 61, 48, 1,
         49, 48, 61, 49, 54, 51, 1] 14 5 = .ok ()
      ↔ ¬ (14 > ([56, 61, 70, 73, 88, 46, 52, 46, 52, 1, 57, 61, 53, 1, 51, 53, 61, 48, 1,
          49, 48, 61, 49, 54, 51, 1] : List Nat).length - 7
          ∨ 5 ≠ ([56, 61, 70, 73, 88, 46, 52, 46, 52, 1, 57, 61, 53, 1, 51, 53, 61, 48, 1,
          49, 48, 61, 49, 54, 51, 1] : List Nat).length - 7 - 14)) :=
  verify_body_length_spec _ 14 5 (by simp) (by simp [Fefix.USIZE])

/-- C5: for every message of at least the minimum viable length (20
bytes), `verify_checksum` compares the checksum recomputed over bytes
`0 .. len-7` against the value parsed from the three digit bytes at
offsets `len-4 .. len-1`, returning the checksum-mismatch error exactly
when they differ and `Ok` exactly when they are equal. -/
theorem verify_checksum_spec (message : List Nat)
    (_hmin : Fefix.MIN_FIX_MESSAGE_LEN_IN_BYTES ≤ message.length) :
    (Fefix.verify_checksum message = .ok ()
      ↔ Fefix.parse_u8_from_decimal (message.getD (message.length - 4) 0)
          (message.getD (message.length - 3) 0) (message.getD (message.length - 2) 0)
        = Fefix.checksum_10 (message.take (message.length - 7)))
    ∧ (Fefix.verify_checksum message = .error .CheckSum
      ↔ Fefix.parse_u8_from_decimal (message.getD (message.length - 4) 0)
          (message.getD (message.length - 3) 0) (message.getD (message.length - 2) 0)
        ≠ Fefix.checksum_10 (message.take (message.length - 7))) := by
  simp only [Fefix.verify_checksum, Fefix.checksum_digits, Fefix.FIELD_CHECKSUM_LEN_IN_BYTES]
  by_cases h : Fefix.parse_u8_from_decimal (message.getD (message.length - 4) 0)
      (message.getD (message.length - 3) 0) (message.getD (message.length - 2) 0)
    = Fefix.checksum_10 (message.take (message.length - 7))
  · rw [if_neg (fun hne => hne h)]
    exact ⟨⟨fun _ => h, fun _ => rfl⟩,
      ⟨fun hc => Except.noConfusion hc, fun hne => absurd h hne⟩⟩
  · rw [if_pos h]
    exact ⟨⟨fun hc => Except.noConfusion hc, fun he => absurd he h⟩,
      ⟨fun _ => h, fun _ => rfl⟩⟩

/-- Witness for C5 on the spec's worked example message
`8=FIX.4.4|9=5|35=0|10=163|` (SOH separators). -/
theorem verify_checksum_spec_witness :
    (Fefix.verify_checksum
        [56, 61, 70, 73, 88, 46, 52, 46, 52, 1, 57, 61, 53, 1, 51, 53, 61, 48, 1,
         49, 48, 61, 49, 54, 51, 1] = .ok ()
      ↔ Fefix.parse_u8_from_decimal
          (([56, 61, 70, 73, 88, 46, 52, 46, 52, 1, 57, 61, 53, 1, 51, 53, 61, 48, 1,
            49, 48, 61, 49, 54, 51, 1] : List Nat).getD
            (([56, 61, 70, 73, 88, 46, 52, 46, 52, 1, 57, 61, 53, 1, 51, 53, 61, 48, 1,
              49, 48, 61, 49, 54, 51, 1] : List Nat).length - 4) 0)
          (([56, 61, 70, 73, 88, 46, 52, 46, 52, 1, 57, 61, 53, 1, 51, 53, 61, 48, 1,
            49, 48, 61, 49, 54, 51, 1] : List Nat).getD
            (([56, 61, 70, 73, 88, 46, 52, 46, 52, 1, 57, 61, 53, 1, 51, 53, 61, 48, 1,
              49, 48, 61, 49, 54, 51, 1] : List Nat).length - 3) 0)
          (([56, 61, 70, 73, 88, 46, 52, 46, 52, 1, 57, 61, 53, 1, 51, 53, 61, 48, 1,
            49, 48, 61, 49, 54, 51, 1] : List Nat).getD
            (([56, 61, 70, 73, 88, 46, 52, 46, 52, 1, 57, 61, 53, 1, 51, 53, 61, 48, 1,
              49, 48, 61, 49, 54, 51, 1] : List Nat).length - 2) 0)
        = Fefix.checksum_10
            (([56, 61, 70, 73, 88, 46, 52, 46, 52, 1, 57, 61, 53, 1, 51, 53, 61, 48, 1,
              49, 48, 61, 49, 54, 51, 1] : List Nat).take
              (([56, 61, 70, 73, 88, 46, 52, 46, 52, 1, 57, 61, 53, 1, 51, 53, 61, 48, 1,
                49, 48, 61, 49, 54, 51, 1] : List Nat).length - 7)))
    ∧ (Fefix.verify_checksum
        [56, 61, 70, 73, 88, 46, 52, 46, 52, 1, 57, 61, 53, 1, 51, 53, 61, 48, 1,
         49, 48, 61, 49, 54, 51, 1] = .error .CheckSum
      ↔ Fefix.parse_u8_from_decimal
          (([56, 61, 70, 73, 88, 46, 52, 46, 52, 1, 57, 61, 53, 1, 51, 53, 61, 48, 1,
            49, 48, 61, 49, 54, 51, 1] : List Nat).getD
            (([56, 61, 70, 73, 88, 46, 52, 46, 52, 1, 57, 61, 53, 1, 51, 53, 61, 48, 1,
              49, 48, 61, 49, 54, 51, 1] : List Nat).length - 4) 0)
          (([56, 61, 70, 73, 88, 46, 52, 46, 52, 1, 57, 61, 53, 1, 51, 53, 61, 48, 1,
            49, 48, 61, 49, 54, 51, 1] : List Nat).getD
            (([56, 61, 70, 73, 88, 46, 52, 46, 52, 1, 57, 61, 53, 1, 51, 53, 61, 48, 1,
              49, 48, 61, 49, 54, 51, 1] : List Nat).length - 3) 0)
          (([56, 61, 70, 73, 88, 46, 52, 46, 52, 1, 57, 61, 53, 1, 51, 53, 61, 48, 1,
            49, 48, 61, 49, 54, 51, 1] : List Nat).getD
            (([56, 61, 70, 73, 88, 46, 52, 46, 52, 1, 57, 61, 53, 1, 51, 53, 61, 48, 1,
              49, 48, 61, 49, 54, 51, 1] : List Nat).length - 2) 0)
        ≠ Fefix.checksum_10
            (([56, 61, 70, 73, 88, 46, 52, 46, 52, 1, 57, 61, 53, 1, 51, 53, 61, 48, 1,
              49, 48, 61, 49, 54, 51, 1] : List Nat).take
              (([56, 61, 70, 73, 88, 46, 52, 46, 52, 1, 57, 61, 53, 1, 51, 53, 61, 48, 1,
                49, 48, 61, 49, 54, 51, 1] : List Nat).length - 7))) :=
  verify_checksum_spec _ (by simp [Fefix.MIN_FIX_MESSAGE_LEN_IN_BYTES])

/-- C10: `encode_raw` returns `Ok` for every begin-string, body writer,
initial buffer and separator: the `EncodeError` branch of its result is
never produced. -/
theorem encode_raw_never_errors :
    ∀ (begin_string body_bytes : List Nat) (body_ret : Nat)
      (buffer : List Nat) (separator : Nat),
      ∃ p : Nat × List Nat,
        Fefix.encode_raw begin_string body_bytes body_ret buffer separator = .ok p :=
  fun _ _ _ _ _ => ⟨_, rfl⟩

/-! ## Claims C3, C10, C1: what `encode_raw` writes and returns -/

namespace Fefix

/-- Writing `ds` over a same-length placeholder that sits immediately
after a prefix `A` replaces the placeholder. -/
theorem writeAt_patch (A pad B ds : List Nat) (h : pad.length = ds.length) :
    writeAt (A ++ (pad ++ B)) A.length ds = A ++ (ds ++ B) := by
  rw [writeAt_append ds A (pad ++ B) A.length (Nat.le_refl _), Nat.sub_self,
    writeAt_replace ds pad B h]

/-- The bytes `encode_raw` appends after the initial buffer contents:
`8=` + begin-string + separator + `9=` + the back-patched body-length
digits + separator + the body bytes + the checksum field. -/
def encodedTail (begin_string body_bytes : List Nat) (body_ret sep : Nat) : List Nat :=
  let mid := ([56, 61] ++ begin_string ++ [sep, 57, 61])
      ++ (bodyLenDigits body_ret ++ ([sep] ++ body_bytes))
  mid ++ checksumField (checksum_10 mid) sep

/-- Encoding only appends: the final buffer is the initial buffer
followed by `encodedTail`, and the returned value is the final buffer's
total length. -/
theorem encode_raw_eq_append (bs body : List Nat) (ret : Nat) (buf : List Nat) (sep : Nat) :
    encode_raw bs body ret buf sep
      = .ok ((buf ++ encodedTail bs body ret sep).length,
             buf ++ encodedTail bs body ret sep) := by
  simp only [encode_raw, encodedTail]
  have h2 : (buf ++ [56, 61] ++ bs ++ [sep, 57, 61, 48, 48, 48, 48, 48, 48, sep]).length - 7
      = (buf ++ ([56, 61] ++ bs ++ [sep, 57, 61])).length := by
    simp only [List.length_append, List.length_cons, List.length_nil]
    omega
  rw [h2]
  have h3 : (buf ++ [56, 61] ++ bs ++ [sep, 57, 61, 48, 48, 48, 48, 48, 48, sep]) ++ body
      = (buf ++ ([56, 61] ++ bs ++ [sep, 57, 61]))
        ++ ([48, 48, 48, 48, 48, 48] ++ ([sep] ++ body)) := by
    simp [List.append_assoc]
  rw [h3]
  rw [writeAt_patch (buf ++ ([56, 61] ++ bs ++ [sep, 57, 61])) [48, 48, 48, 48, 48, 48]
    ([sep] ++ body) (bodyLenDigits ret) rfl]
  rw [List.append_assoc buf ([56, 61] ++ bs ++ [sep, 57, 61])
    (bodyLenDigits ret ++ ([sep] ++ body))]
  rw [List.drop_left buf (([56, 61] ++ bs ++ [sep, 57, 61])
    ++ (bodyLenDigits ret ++ ([sep] ++ body)))]
  rw [List.append_assoc buf (([56, 61] ++ bs ++ [sep, 57, 61])
    ++ (bodyLenDigits ret ++ ([sep] ++ body)))]

end Fefix

/-- C3 (counterexample): started from the one-byte buffer `[48]`,
`encode_raw` writes 19 bytes (final length 20 minus initial length 1)
but returns 20, the total buffer length — not the number of bytes
written during the call. -/
theorem encode_raw_return_cex :
    Fefix.encodedLen [] [] 0 [48] 1 = 20
    ∧ (Fefix.encodedMsg [] [] 0 [48] 1).length - ([48] : List Nat).length = 19
    ∧ Fefix.encodedLen [] [] 0 [48] 1
        ≠ (Fefix.encodedMsg [] [] 0 [48] 1).length - ([48] : List Nat).length := by
  have h1 : Fefix.encodedLen [] [] 0 [48] 1 = 20 := rfl
  have h2 : (Fefix.encodedMsg [] [] 0 [48] 1).length - ([48] : List Nat).length = 19 := rfl
  refine ⟨h1, h2, ?_⟩
  rw [h1, h2]
  omega

/-- C3 (amended): `encode_raw` appends `written` bytes to the buffer and
returns the buffer's total length after the call — the initial length
plus the bytes written — which equals the number of bytes written
exactly when the initial buffer is empty. -/
theorem encode_raw_returns_buffer_length :
    ∀ (bs body : List Nat) (ret : Nat) (buf : List Nat) (sep : Nat),
      ∃ written : List Nat,
        Fefix.encode_raw bs body ret buf sep
          = .ok (buf.length + written.length, buf ++ written) :=
  fun bs body ret buf sep =>
    ⟨Fefix.encodedTail bs body ret sep, by
      rw [Fefix.encode_raw_eq_append bs body ret buf sep, List.length_append]⟩

namespace Fefix

/-- If the extracted checksum digits parse to exactly the recomputed
checksum, `verify_checksum` accepts. -/
theorem verify_checksum_eq_ok (m : List Nat) (d0 d1 d2 : Nat)
    (hd : checksum_digits m = (d0, d1, d2))
    (h : parse_u8_from_decimal d0 d1 d2
        = checksum_10 (m.take (m.length - FIELD_CHECKSUM_LEN_IN_BYTES))) :
    verify_checksum m = .ok () := by
  unfold verify_checksum
  rw [hd]
  exact if_neg (fun hne => hne h)

/-- The checksum digits of a message ending in a 7-byte checksum field
are the three bytes before the final separator. -/
theorem checksum_digits_of_tail (mid : List Nat) (d1 d2 d3 s : Nat) :
    checksum_digits (mid ++ [49, 48, 61, d1, d2, d3, s]) = (d1, d2, d3) := by
  unfold checksum_digits
  have hL : (mid ++ [49, 48, 61, d1, d2, d3, s]).length = mid.length + 7 := by
    simp
  rw [hL]
  rw [show mid.length + 7 - 4 = mid.length + 3 from by omega,
    show mid.length + 7 - 3 = mid.length + 4 from by omega,
    show mid.length + 7 - 2 = mid.length + 5 from by omega]
  rw [List.getD_append_right mid _ 0 (mid.length + 3) (by omega),
    List.getD_append_right mid _ 0 (mid.length + 4) (by omega),
    List.getD_append_right mid _ 0 (mid.length + 5) (by omega)]
  rw [show mid.length + 3 - mid.length = 3 from by omega,
    show mid.length + 4 - mid.length = 4 from by omega,
    show mid.length + 5 - mid.length = 5 from by omega]
  rfl

/-- Dropping the 7-byte checksum field from the end recovers the
checksummed region. -/
theorem take_len_sub_7 (mid t : List Nat) (ht : t.length = 7) :
    (mid ++ t).take ((mid ++ t).length - FIELD_CHECKSUM_LEN_IN_BYTES) = mid := by
  have h : (mid ++ t).length - FIELD_CHECKSUM_LEN_IN_BYTES = mid.length := by
    simp [FIELD_CHECKSUM_LEN_IN_BYTES, ht]
  rw [h, List.take_left]

/-- A message of the form `mid ++ checksum-field-of-mid` passes
`verify_checksum`: the parsed digits and the recomputed checksum both
equal `checksum_10 mid`. -/
theorem verify_checksum_append_checksumField (mid : List Nat) (sep : Nat) :
    verify_checksum (mid ++ checksumField (checksum_10 mid) sep) = .ok () := by
  have hc : checksum_10 mid < 256 := checksum_10_lt mid
  apply verify_checksum_eq_ok _ (checksum_10 mid / 100 + 48)
    (checksum_10 mid / 10 % 10 + 48) (checksum_10 mid % 10 + 48)
  · exact checksum_digits_of_tail mid _ _ _ _
  · rw [take_len_sub_7 mid (checksumField (checksum_10 mid) sep) rfl]
    exact parse_checksum_field_digits (checksum_10 mid) hc

/-- If the wrapped body-length computation yields exactly the declared
value and the offsets are consistent, `verify_body_length` accepts. -/
theorem verify_body_length_eq_ok (data : List Nat) (start_of_body nominal bl : Nat)
    (hb : wsub (wsub data.length FIELD_CHECKSUM_LEN_IN_BYTES) start_of_body = bl)
    (hcond : ¬ (start_of_body > data.length - FIELD_CHECKSUM_LEN_IN_BYTES ∨ nominal ≠ bl)) :
    verify_body_length data start_of_body nominal = .ok () := by
  unfold verify_body_length
  rw [hb]
  exact if_neg hcond

/-- The encoded tail passes `verify_body_length` at the start-of-body
offset `begin_string.length + 12` with the declared length `body_ret`,
provided the body writer returned its true byte count and the message
is `usize`-representable. -/
theorem verify_body_length_encodedTail (bs body : List Nat) (ret sep : Nat)
    (hret : ret = body.length)
    (hsize : bs.length + body.length + 19 < USIZE) :
    verify_body_length (encodedTail bs body ret sep) (bs.length + 12) ret = .ok () := by
  have hU7 : (7 : Nat) < USIZE := by
    rw [USIZE]
    norm_num
  have hlen : (encodedTail bs body ret sep).length = bs.length + 19 + body.length := by
    simp only [encodedTail, checksumField, bodyLenDigits, List.length_append,
      List.length_cons, List.length_nil]
    omega
  apply verify_body_length_eq_ok _ _ _ body.length
  · rw [hlen]
    simp only [FIELD_CHECKSUM_LEN_IN_BYTES]
    rw [wsub_eq_sub (bs.length + 19 + body.length) 7 (by omega) hU7 (by omega)]
    rw [wsub_eq_sub (bs.length + 19 + body.length - 7) (bs.length + 12)
      (by omega) (by omega) (by omega)]
    omega
  · rw [hlen]
    simp only [FIELD_CHECKSUM_LEN_IN_BYTES]
    omega

end Fefix

/-- C1: a message encoded by `encode_raw` into an initially empty
buffer — with a body writer that only appends and returns its exact
byte count, at most 999,999 — passes `verify_checksum`, and passes
`verify_body_length` at the start-of-body offset
`begin_string.length + 12` (the first byte after the `BodyLength`
field's trailing separator) with the back-patched declared length. -/
theorem encode_raw_verifies (bs body : List Nat) (ret start sep : Nat)
    (hret : ret = body.length)
    (_hmax : ret ≤ 999999)
    (hstart : start = bs.length + 12)
    (hsize : bs.length + body.length + 19 < Fefix.USIZE) :
    Fefix.verify_checksum (Fefix.encodedMsg bs body ret [] sep) = .ok ()
    ∧ Fefix.verify_body_length (Fefix.encodedMsg bs body ret [] sep) start ret = .ok () := by
  have hmsg : Fefix.encodedMsg bs body ret [] sep = Fefix.encodedTail bs body ret sep := by
    unfold Fefix.encodedMsg
    rw [Fefix.encode_raw_eq_append]
    rfl
  rw [hmsg, hstart]
  exact ⟨Fefix.verify_checksum_append_checksumField _ sep,
    Fefix.verify_body_length_encodedTail bs body ret sep hret hsize⟩

/-- Witness for C1: begin-string `FIX.4.4`, body `35=0` + SOH (5 bytes,
writer returns 5), SOH separator; the result passes both validators. -/
theorem encode_raw_verifies_witness :
    Fefix.verify_checksum
        (Fefix.encodedMsg [70, 73, 88, 46, 52, 46, 52] [51, 53, 61, 48, 1] 5 [] 1) = .ok ()
    ∧ Fefix.verify_body_length
        (Fefix.encodedMsg [70, 73, 88, 46, 52, 46, 52] [51, 53, 61, 48, 1] 5 [] 1) 19 5
      = .ok () :=
  encode_raw_verifies [70, 73, 88, 46, 52, 46, 52] [51, 53, 61, 48, 1] 5 19 1
    (by decide) (by decide) (by decide) (by norm_num [Fefix.USIZE])
